import Mathlib

/-!
Verification of the Big-5 Asian Handicap predictor pipeline.

Shallow embedding of the repository code:
  pipeline/predictor.py : schedule rows, window splitting, model fitting and
                          prediction orchestration, handicap combination
  manage.py             : match-id derivation and database refresh (upsert) logic

Conventions of the embedding:
  - pandas NaN / NaT / None are Option.none;
  - float values carried by the pipeline are embedded as rationals (the
    pipeline only moves them around, subtracts and averages them);
  - a raised Python exception is Except.error;
  - a pandas Timestamp is embedded as its two projections used by the code:
    the UTC day number (for the date-only window comparisons) together with
    the calendar date (consumed by strftime in manage.py) and the minute of
    day (discarded by normalization).  No claim relates the two date views.
-/

set_option maxRecDepth 4000

/-- A calendar date (year, month, day) as rendered by strftime in manage.py. -/
structure Date where
  y : Nat
  m : Nat
  d : Nat
deriving DecidableEq, Repr

/-- A timestamp: UTC day number, its calendar date and the minute of day.
The day field is the days-since-epoch number of the calendar date; the
embedding carries both projections of the one underlying instant. -/
structure Ts where
  day : Int
  ymd : Date
  minute : Nat
deriving DecidableEq, Repr

def epochTs : Ts := ⟨0, ⟨1970, 1, 1⟩, 0⟩

/-- One row of the normalized schedule produced by clean-schedule
(predictor.py): League, Season dropped (unused downstream), Date (none = NaT),
Home, Away, Score string (none = NaN), xG and xG.1, parsed goals. -/
structure Row where
  league : String
  date : Option Ts
  home : String
  away : String
  score : Option String
  xg : Option ℚ
  xg1 : Option ℚ
  homeGoals : Option ℚ
  awayGoals : Option ℚ
deriving DecidableEq, Repr

/-- Rows reaching predictions always carry a parsed date (NaT fails every
window mask), so the default is unreachable; mirrors row access of Date. -/
def Row.dateD (r : Row) : Ts := r.date.getD epochTs

/-! ## Window splitting (run_for_leagues, predictor.py lines 186-193)

START_UTC = TODAY_UTC - START_DAYS_BACK days, END_UTC = TODAY_UTC +
FORECAST_DAYS days, all tz-naive UTC midnights, embedded as day numbers.
The masks compare the normalized (date-only) Date column. -/

def windowStart (today : Int) (startDaysBack : Nat) : Int := today - startDaysBack

def windowEnd (today : Int) (forecastDays : Nat) : Int := today + forecastDays

/-- Historical mask: date strictly before START_UTC and Score non-NaN. -/
def histMask (today : Int) (startDaysBack : Nat) (r : Row) : Bool :=
  match r.date with
  | none => false
  | some ts => decide (ts.day < windowStart today startDaysBack) && r.score.isSome

/-- Upcoming mask: START_UTC <= date <= END_UTC (inclusive). -/
def upMask (today : Int) (startDaysBack forecastDays : Nat) (r : Row) : Bool :=
  match r.date with
  | none => false
  | some ts =>
      decide (windowStart today startDaysBack ≤ ts.day) &&
      decide (ts.day ≤ windowEnd today forecastDays)

def historicalSet (today : Int) (startDaysBack : Nat) (rows : List Row) : List Row :=
  rows.filter (histMask today startDaysBack)

def upcomingSet (today : Int) (startDaysBack forecastDays : Nat) (rows : List Row) : List Row :=
  rows.filter (upMask today startDaysBack forecastDays)

/-! Concrete rows for the window-boundary scenario: today = 2024-06-10 UTC,
day number 19884 (days since 1970-01-01). -/

def rowOn (day : Int) (ymd : Date) (score : Option String) : Row :=
  { league := "ENG", date := some ⟨day, ymd, 0⟩, home := "H", away := "A",
    score := score, xg := none, xg1 := none,
    homeGoals := none, awayGoals := none }

def rJun08Fin : Row := rowOn 19882 ⟨2024, 6, 8⟩ (some "2-1")
def rJun09Fin : Row := rowOn 19883 ⟨2024, 6, 9⟩ (some "1-0")
def rJun09NoScore : Row := rowOn 19883 ⟨2024, 6, 9⟩ none
def rJun14 : Row := rowOn 19888 ⟨2024, 6, 14⟩ none
def rJun15 : Row := rowOn 19889 ⟨2024, 6, 15⟩ none

def windowDemoRows : List Row :=
  [rJun08Fin, rJun09Fin, rJun09NoScore, rJun14, rJun15]

/-- C2 counterexample: with start_days_back = 1 and today = 2024-06-10
(day 19884), window_start is 2024-06-09 itself and the historical mask is a
strict comparison, so a finished match dated 2024-06-09 is NOT historical
(it falls in the upcoming window), and a scoreless 2024-06-09 match is NOT
excluded from both sets: it is in the upcoming set. -/
theorem windowBoundary_cex :
    rJun09Fin ∉ historicalSet 19884 1 windowDemoRows ∧
    rJun09NoScore ∈ upcomingSet 19884 1 4 windowDemoRows := by
  decide

/-- C2 (amended): with start_days_back = 1, forecast_days = 4 and today =
2024-06-10 UTC: a finished match dated 2024-06-08 is historical; matches dated
2024-06-09 (finished or scoreless) land in the upcoming set, not the
historical set; 2024-06-14 is the last upcoming date; 2024-06-15 is excluded
from both sets. -/
theorem windowBoundary_amended :
    historicalSet 19884 1 windowDemoRows = [rJun08Fin] ∧
    upcomingSet 19884 1 4 windowDemoRows = [rJun09Fin, rJun09NoScore, rJun14] := by
  decide

/-- C3: membership characterization of the two window sets: a row is
historical iff its date-only day is strictly below window_start and its score
is present; a row is upcoming iff its date-only day lies in
[window_start, window_end] inclusive.  Rows with unparsable dates (NaT) are in
neither set. -/
theorem windowSets_spec (today : Int) (sdb fd : Nat) (rows : List Row) (r : Row) :
    (r ∈ historicalSet today sdb rows ↔
      r ∈ rows ∧ (∃ ts, r.date = some ts ∧ ts.day < windowStart today sdb) ∧
        r.score.isSome = true) ∧
    (r ∈ upcomingSet today sdb fd rows ↔
      r ∈ rows ∧ ∃ ts, r.date = some ts ∧
        windowStart today sdb ≤ ts.day ∧ ts.day ≤ windowEnd today fd) := by
  constructor
  · simp only [historicalSet, List.mem_filter, histMask]
    constructor
    · rintro ⟨hm, hb⟩
      refine ⟨hm, ?_⟩
      cases hd : r.date with
      | none => rw [hd] at hb; simp at hb
      | some ts =>
          rw [hd] at hb
          simp only [Bool.and_eq_true, decide_eq_true_eq] at hb
          exact ⟨⟨ts, rfl, hb.1⟩, hb.2⟩
    · rintro ⟨hm, ⟨ts, hd, hlt⟩, hs⟩
      refine ⟨hm, ?_⟩
      rw [hd]
      simp only [Bool.and_eq_true, decide_eq_true_eq]
      exact ⟨hlt, hs⟩
  · simp only [upcomingSet, List.mem_filter, upMask]
    constructor
    · rintro ⟨hm, hb⟩
      refine ⟨hm, ?_⟩
      cases hd : r.date with
      | none => rw [hd] at hb; simp at hb
      | some ts =>
          rw [hd] at hb
          simp only [Bool.and_eq_true, decide_eq_true_eq] at hb
          exact ⟨ts, rfl, hb.1, hb.2⟩
    · rintro ⟨hm, ts, hd, h1, h2⟩
      refine ⟨hm, ?_⟩
      rw [hd]
      simp only [Bool.and_eq_true, decide_eq_true_eq]
      exact ⟨h1, h2⟩

/-! ## Statistical model collaborator (penaltyblog, external to the repo)

The collaborator contract (spec section 6): a model family is constructible
from two goal series, two team-label series and optional weights, has a fit
step that can fail, and a predict capability defined for team pairs known to
the training set.  The predict result is none when the collaborator raises on
a team unseen at training time; predictor.py itself contains no handling for
that case. -/

/-- A fitted goal-expectation model: predict gives the
(home_goal_expectation, away_goal_expectation) pair, or none when the
collaborator raises for a team outside its training data. -/
structure Model where
  predict : String → String → Option (ℚ × ℚ)

/-- The argument bundle handed to a model constructor in fit-and-predict:
goal series (NaN possible), team label series, optional Dixon-Coles weights. -/
structure TrainInput where
  goalsHome : List (Option ℚ)
  goalsAway : List (Option ℚ)
  homes : List String
  aways : List String
  weights : Option (List ℚ)

/-- The penaltyblog surface used by predictor.py: the two model families'
constructor-plus-fit (an error models a raised fitting exception) and the
Dixon-Coles weight function. -/
structure ModelLib where
  fitBP : TrainInput → Except String Model
  fitWB : TrainInput → Except String Model
  dcWeights : List (Option Ts) → ℚ → List ℚ

/-- DC_RHO = 0.00175 (predictor.py line 19). -/
def dcRho : ℚ := 7 / 4000

/-- The error surfaced when model.predict raises for an unseen team inside
the prediction loop of predict-frame (predictor.py line 84). -/
def unseenTeamError : String := "ValueError: team not found in training data"

/-- Row of a prediction frame built by predict-frame: fixture keys plus the
two goal expectations.  The python column names encode kind and xG/ag, but
downstream consumption is positional (columns 4 and 5), so the embedding
keeps unlabeled fields. -/
structure PredRow where
  league : String
  date : Ts
  home : String
  away : String
  homeExp : ℚ
  awayExp : ℚ
deriving DecidableEq, Repr

/-- predict-frame (predictor.py lines 72-92): empty frame when the model is
absent or no upcoming fixtures; otherwise one row per upcoming fixture.  A
collaborator exception while predicting any fixture propagates (there is no
try/except in the loop), aborting the whole frame. -/
def predictFrame (model : Option Model) (upcoming : List Row) :
    Except String (List PredRow) :=
  match model with
  | none => .ok []
  | some m =>
    if upcoming.isEmpty then .ok []
    else upcoming.mapM fun r =>
      match m.predict r.home r.away with
      | some e => .ok ⟨r.league, r.dateD, r.home, r.away, e.1, e.2⟩
      | none => .error unseenTeamError

/-- The handicap derivation (predictor.py line 150): AH = AwayExp - HomeExp. -/
def handicapLine (p : PredRow) : ℚ := p.awayExp - p.homeExp

structure HcapRow where
  league : String
  date : Ts
  home : String
  away : String
  hcap : ℚ
deriving DecidableEq, Repr

/-- The tmp frame of the merge loop: fixture keys plus the alias column
holding AwayExp - HomeExp. -/
def hcapFrame (df : List PredRow) : List HcapRow :=
  df.map fun p => ⟨p.league, p.date, p.home, p.away, handicapLine p⟩

/-- One row of the combined table: fixture keys, the four per-model handicap
cells (none = NaN / absent), and the Average Handicap cell. -/
structure CombinedRow where
  league : String
  date : Ts
  home : String
  away : String
  bpAg : Option ℚ
  bpXg : Option ℚ
  wbAg : Option ℚ
  wbXg : Option ℚ
  avg : Option ℚ
deriving DecidableEq, Repr

/-- The combined frame: its rows plus which of the four handicap columns
exist.  A column exists only if the corresponding model frame was non-empty
and therefore merged (predictor.py line 145: if not df_src.empty). -/
structure Combined where
  rows : List CombinedRow
  hasBpAg : Bool
  hasBpXg : Bool
  hasWbAg : Bool
  hasWbXg : Bool
deriving DecidableEq, Repr

inductive HCol
  | bpAg
  | bpXg
  | wbAg
  | wbXg
deriving DecidableEq, Repr

/-- Left-merge of one model's handicap column onto the combined frame, keyed
on (League, Date, Home, Away); skipped entirely when the source frame is
empty, so the column then never exists.  An unmatched key leaves NaN. -/
def mergeOne (c : Combined) (df : List PredRow) (col : HCol) : Combined :=
  if df.isEmpty then c
  else
    let tmp := hcapFrame df
    let look := fun (r : CombinedRow) =>
      (tmp.find? fun t =>
        t.league == r.league && t.date == r.date &&
        t.home == r.home && t.away == r.away).map HcapRow.hcap
    match col with
    | .bpAg => { c with
                 hasBpAg := true
                 rows := c.rows.map fun r => { r with bpAg := look r } }
    | .bpXg => { c with
                 hasBpXg := true
                 rows := c.rows.map fun r => { r with bpXg := look r } }
    | .wbAg => { c with
                 hasWbAg := true
                 rows := c.rows.map fun r => { r with wbAg := look r } }
    | .wbXg => { c with
                 hasWbXg := true
                 rows := c.rows.map fun r => { r with wbXg := look r } }

/-- The non-missing handicap cells of a combined row, in the column order of
the Average Handicap selection (predictor.py lines 157-162). -/
def presentCells (r : CombinedRow) : List ℚ :=
  [r.bpAg, r.bpXg, r.wbAg, r.wbXg].filterMap id

/-- The KeyError raised by selecting the four handicap columns when one of
them was never merged (pandas rejects list indexing with missing labels). -/
def missingColumnsError : String :=
  "KeyError: handicap columns not in index"

/-- The Average Handicap step (predictor.py lines 157-162): select the four
named handicap columns and take the row mean with skipna.  Selection raises
when any of the four columns does not exist; otherwise the mean is over the
non-NaN cells, NaN when all four are missing. -/
def avgStep (c : Combined) : Except String Combined :=
  if c.hasBpAg && c.hasBpXg && c.hasWbAg && c.hasWbXg then
    .ok { c with rows := c.rows.map fun r =>
      { r with avg :=
          if (presentCells r).isEmpty then none
          else some ((presentCells r).sum / (presentCells r).length) } }
  else .error missingColumnsError

/-- The merge-and-average tail of fit-and-predict (predictor.py lines
138-162): base frame of upcoming fixture keys, the four left-merges in source
order (bp_ag, bp_xg, wb_ag, wb_xg), then the Average Handicap column. -/
def combineStep (upcoming : List Row)
    (dfBpAg dfBpXg dfWbAg dfWbXg : List PredRow) : Except String Combined :=
  let base : Combined :=
    { rows := upcoming.map fun r =>
        ⟨r.league, r.dateD, r.home, r.away, none, none, none, none, none⟩,
      hasBpAg := false, hasBpXg := false, hasWbAg := false, hasWbXg := false }
  let c1 := mergeOne base dfBpAg .bpAg
  let c2 := mergeOne c1 dfBpXg .bpXg
  let c3 := mergeOne c2 dfWbAg .wbAg
  let c4 := mergeOne c3 dfWbXg .wbXg
  avgStep c4

/-- The per-league result dictionary of fit-and-predict. -/
structure LeagueResult where
  bpXg : List PredRow
  wbXg : List PredRow
  bpAg : List PredRow
  wbAg : List PredRow
  combined : Combined
deriving DecidableEq, Repr

/-- The empty result recorded for a league with no upcoming fixtures
(predictor.py line 196): an empty frame for every model kind. -/
def emptyLeagueResult : LeagueResult :=
  ⟨[], [], [], [], ⟨[], false, false, false, false⟩⟩

/-- fit-and-predict (predictor.py lines 95-170): fit the two xG models only
when some historical row has both xG columns, always fit the two actual-goals
models with Dixon-Coles weights, build the four prediction frames, merge and
average.  Any collaborator exception propagates. -/
def fitAndPredict (lib : ModelLib) (historical upcoming : List Row) :
    Except String LeagueResult := do
  let histXg := historical.filter fun r => r.xg.isSome && r.xg1.isSome
  let xgModels ←
    if histXg.isEmpty then pure none
    else do
      let bp ← lib.fitBP ⟨histXg.map Row.xg, histXg.map Row.xg1,
        histXg.map Row.home, histXg.map Row.away, none⟩
      let wb ← lib.fitWB ⟨histXg.map Row.xg, histXg.map Row.xg1,
        histXg.map Row.home, histXg.map Row.away, none⟩
      pure (some (bp, wb))
  let w := lib.dcWeights (historical.map Row.date) dcRho
  let bpAg ← lib.fitBP ⟨historical.map Row.homeGoals, historical.map Row.awayGoals,
    historical.map Row.home, historical.map Row.away, some w⟩
  let wbAg ← lib.fitWB ⟨historical.map Row.homeGoals, historical.map Row.awayGoals,
    historical.map Row.home, historical.map Row.away, some w⟩
  let dfBpXg ← predictFrame (xgModels.map Prod.fst) upcoming
  let dfWbXg ← predictFrame (xgModels.map Prod.snd) upcoming
  let dfBpAg ← predictFrame (some bpAg) upcoming
  let dfWbAg ← predictFrame (some wbAg) upcoming
  let combined ← combineStep upcoming dfBpAg dfBpXg dfWbAg dfWbXg
  pure ⟨dfBpXg, dfWbXg, dfBpAg, dfWbAg, combined⟩

/-- One league of run_for_leagues (predictor.py lines 186-197): split the
normalized table, record the all-empty result when upcoming is empty,
otherwise fit and predict. -/
def runLeague (lib : ModelLib) (today : Int) (sdb fd : Nat) (df : List Row) :
    Except String LeagueResult :=
  let historical := historicalSet today sdb df
  let upcoming := upcomingSet today sdb fd df
  if upcoming.isEmpty then .ok emptyLeagueResult
  else fitAndPredict lib historical upcoming

/-- run_for_leagues over the grouped schedule: league by league, an exception
anywhere aborting the whole run. -/
def runForLeagues (lib : ModelLib) (today : Int) (sdb fd : Nat)
    (scheds : List (String × List Row)) :
    Except String (List (String × LeagueResult)) :=
  scheds.mapM fun p => (runLeague lib today sdb fd p.2).map fun r => (p.1, r)

instance {ε α : Type} [DecidableEq ε] [DecidableEq α] : DecidableEq (Except ε α) :=
  fun x y =>
    match x, y with
    | .error e, .error f =>
      match decEq e f with
      | isTrue h => isTrue (h ▸ rfl)
      | isFalse h => isFalse fun hc => h (Except.error.inj hc)
    | .error _, .ok _ => isFalse fun hc => Except.noConfusion hc
    | .ok _, .error _ => isFalse fun hc => Except.noConfusion hc
    | .ok a, .ok b =>
      match decEq a b with
      | isTrue h => isTrue (h ▸ rfl)
      | isFalse h => isFalse fun hc => h (Except.ok.inj hc)

/-! ## Concrete fixtures and a concrete model collaborator for evaluation -/

def tsOn (n : Int) : Ts := ⟨n, ⟨2024, 6, 10⟩, 0⟩

/-- A finished historical row with actual goals only (no xG). -/
def histRowAg (h a : String) : Row :=
  { league := "L", date := some (tsOn 19800), home := h, away := a,
    score := some "1-0", xg := none, xg1 := none,
    homeGoals := some 1, awayGoals := some 0 }

/-- A finished historical row carrying both xG columns. -/
def histRowXg (h a : String) : Row :=
  { league := "L", date := some (tsOn 19800), home := h, away := a,
    score := some "1-0", xg := some 1, xg1 := some 1,
    homeGoals := some 1, awayGoals := some 0 }

/-- An upcoming fixture row. -/
def upRow (h a : String) : Row :=
  { league := "L", date := some (tsOn 19885), home := h, away := a,
    score := none, xg := none, xg1 := none,
    homeGoals := none, awayGoals := none }

/-- Teams a model constructor sees in its training input. -/
def knownTeams (ti : TrainInput) : List String := ti.homes ++ ti.aways

/-- A concrete collaborator whose fits always succeed and whose fitted models
return the constant expectation pair (he, ae) for team pairs seen at training
time and raise (none) otherwise, matching the collaborator contract. -/
def constLib (he ae : ℚ) : ModelLib :=
  { fitBP := fun ti => .ok ⟨fun h a =>
      if (knownTeams ti).contains h && (knownTeams ti).contains a
      then some (he, ae) else none⟩
    fitWB := fun ti => .ok ⟨fun h a =>
      if (knownTeams ti).contains h && (knownTeams ti).contains a
      then some (he, ae) else none⟩
    dcWeights := fun ds _ => ds.map fun _ => 1 }

unseal Rat.add Rat.mul Rat.sub Rat.inv in
/-- C8: the derived handicap line is AwayExp - HomeExp for every prediction
row, and end to end through fit-and-predict: constant expectations
homeExp = 1, awayExp = 2 yield Average Handicap +1 (away favored), and
homeExp = 2, awayExp = 1 yield -1 (home favored). -/
theorem handicapSign_spec :
    (∀ p : PredRow, handicapLine p = p.awayExp - p.homeExp) ∧
    (fitAndPredict (constLib 1 2) [histRowXg "H" "A"] [upRow "H" "A"]).map
      (fun res => res.combined.rows.map CombinedRow.avg) = .ok [some 1] ∧
    (fitAndPredict (constLib 2 1) [histRowXg "H" "A"] [upRow "H" "A"]).map
      (fun res => res.combined.rows.map CombinedRow.avg) = .ok [some (-1)] :=
  ⟨fun _ => rfl, by decide, by decide⟩

/-- Spec-side definition of the ensemble average (spec section 4.4): the
arithmetic mean of only the non-missing per-model handicap lines, missing
when every line is missing.  Kept separate from avgStep so the claim compares
the code path against the spec wording. -/
def skipMissingMean (cells : List (Option ℚ)) : Option ℚ :=
  let v := cells.filterMap id
  if v.isEmpty then none else some (v.sum / v.length)

/-- C1 (amended): whenever the Average Handicap step succeeds (all four
handicap columns exist), every output row's average is the skip-missing mean
of its four per-model cells: missing cells are ignored, never zero-filled. -/
theorem averageHandicap_skipMissing (c out : Combined) (h : avgStep c = .ok out) :
    ∀ r ∈ out.rows, r.avg = skipMissingMean [r.bpAg, r.bpXg, r.wbAg, r.wbXg] := by
  unfold avgStep at h
  split at h
  · cases h
    intro r hr
    simp only [List.mem_map] at hr
    obtain ⟨r₀, _, rfl⟩ := hr
    simp [skipMissingMean, presentCells]
  · cases h

/-- A combined frame with all four columns present and one row holding a
missing bp-xg cell, for evaluating the average step. -/
def mixedCombined : Combined :=
  { rows := [⟨"L", tsOn 19885, "H", "A", some 1, none, some 2, some 6, none⟩],
    hasBpAg := true, hasBpXg := true, hasWbAg := true, hasWbXg := true }

unseal Rat.add Rat.mul Rat.inv in
theorem averageHandicap_skipMissing_witness :
    skipMissingMean [some (1 : ℚ), none, some 2, some 6] = some 3 ∧
    ∃ out, avgStep mixedCombined = .ok out ∧
      ∀ r ∈ out.rows, r.avg = skipMissingMean [r.bpAg, r.bpXg, r.wbAg, r.wbXg] :=
  ⟨by decide, _, rfl, averageHandicap_skipMissing mixedCombined _ rfl⟩

/-- C1 counterexample: in a league whose historical rows carry no xG, the two
xG model frames are never merged, the corresponding handicap columns do not
exist, and the claimed Average Handicap is never produced: the column
selection raises KeyError (so the claim's clause about families that produced
no handicap column at all fails on the code). -/
theorem averageHandicap_cex :
    fitAndPredict (constLib 1 2) [histRowAg "H" "A"] [upRow "H" "A"] =
      .error missingColumnsError := by
  decide

/-- C5: a league with historical data but no xG columns: run_for_leagues
splits the table, the two xG fits are skipped, the actual-goals prediction
frames are built, but the Average Handicap column selection then raises
KeyError, so no combined table is produced for the league and the whole run
aborts, contradicting the spec's edge case. -/
theorem noXgLeague_keyError :
    runLeague (constLib 3 5) 19884 1 4
      [histRowAg "P" "Q", histRowAg "Q" "P", upRow "P" "Q"] =
      .error missingColumnsError := by
  decide

/-- A fitted model trained on teams A and B only, raising elsewhere. -/
def twoTeamModel : Model :=
  ⟨fun h a =>
    if (["A", "B"].contains h) && (["A", "B"].contains a)
    then some (1, 1) else none⟩

/-- C4: a fixture involving a team unseen at training time: the collaborator
prediction raises, predict-frame has no handling, so the model's whole frame
errors rather than resolving to a missing value, and fit-and-predict aborts
the league with it: the ensemble disappears instead of degrading. -/
theorem unseenTeam_aborts :
    twoTeamModel.predict "Z" "A" = none ∧
    predictFrame (some twoTeamModel) [upRow "Z" "A"] = .error unseenTeamError ∧
    fitAndPredict (constLib 1 2) [histRowXg "A" "B"] [upRow "Z" "A"] =
      .error unseenTeamError := by
  refine ⟨by decide, by decide, by decide⟩

/-- C9: a league with zero upcoming fixtures in the window: run_for_leagues
records the all-empty result for every model kind, raises nothing and fits
nothing (the conclusion holds for an arbitrary collaborator, so no fit is
ever consulted), and continues with the remaining leagues unchanged. -/
theorem emptyUpcoming_skips (lib : ModelLib) (today : Int) (sdb fd : Nat)
    (df : List Row) (h : upcomingSet today sdb fd df = [])
    (lg : String) (rest : List (String × List Row)) :
    runLeague lib today sdb fd df = .ok emptyLeagueResult ∧
    runForLeagues lib today sdb fd ((lg, df) :: rest) =
      (runForLeagues lib today sdb fd rest).map
        (fun rs => (lg, emptyLeagueResult) :: rs) := by
  have h1 : runLeague lib today sdb fd df = .ok emptyLeagueResult := by
    simp [runLeague, h]
  refine ⟨h1, ?_⟩
  have h2 : (runLeague lib today sdb fd df).map (fun r => (lg, r)) =
      .ok (lg, emptyLeagueResult) := by rw [h1]; rfl
  unfold runForLeagues
  rw [List.mapM_cons, h2]
  cases hm : List.mapM
      (fun p => (runLeague lib today sdb fd p.2).map fun r => (p.1, r)) rest <;>
    rfl

theorem emptyUpcoming_skips_witness :
    upcomingSet 19884 1 4 [rJun15] = [] ∧
    runLeague (constLib 1 2) 19884 1 4 [rJun15] = .ok emptyLeagueResult :=
  ⟨by decide,
   (emptyUpcoming_skips (constLib 1 2) 19884 1 4 [rJun15] (by decide) "L" []).1⟩

/-! ## Match id derivation (manage.py lines 14-15)

make_match_id(league, date_dt, home, away) is the f-string
league-YYYYMMDD-home-away with every space replaced by an underscore. -/

/-- The character substitution of the final .replace(' ', '_'). -/
def replChar (c : Char) : Char := if c = ' ' then '_' else c

/-- The four zero-padded decimal digits of the strftime year field
(faithful for years below 10000). -/
def pad4 (n : Nat) : List Nat := [n / 1000 % 10, n / 100 % 10, n / 10 % 10, n % 10]

/-- The two zero-padded decimal digits of the strftime month/day fields. -/
def pad2 (n : Nat) : List Nat := [n / 10 % 10, n % 10]

def dateDigits (d : Date) : List Nat := pad4 d.y ++ pad2 d.m ++ pad2 d.d

/-- The YYYYMMDD rendering of a date as characters. -/
def dateChars (d : Date) : List Char := (dateDigits d).map Nat.digitChar

def matchIdChars (league : List Char) (d : Date) (home away : List Char) : List Char :=
  (league ++ '-' :: (dateChars d ++ '-' :: (home ++ '-' :: away))).map replChar

/-- make_match_id (manage.py line 15). -/
def makeMatchId (league : String) (d : Date) (home away : String) : String :=
  ⟨matchIdChars league.data d home.data away.data⟩

/-- C6 counterexample: make_match_id is not injective.  A hyphen inside a
team name collides with the field separator: (L, d, A-B, C) and
(L, d, A, B-C) share one id; likewise a space and an underscore collide
after the replace step: (L, d, A B, C) and (L, d, A_B, C) share one id. -/
theorem makeMatchId_cex :
    makeMatchId "L" ⟨2024, 6, 9⟩ "A-B" "C" = makeMatchId "L" ⟨2024, 6, 9⟩ "A" "B-C" ∧
    ¬(("A-B" : String) = "A" ∧ ("C" : String) = "B-C") ∧
    makeMatchId "L" ⟨2024, 6, 9⟩ "A B" "C" = makeMatchId "L" ⟨2024, 6, 9⟩ "A_B" "C" ∧
    ("A B" : String) ≠ "A_B" := by
  refine ⟨by decide, by decide, by decide, by decide⟩

/-- Names that survive the id encoding reversibly: no hyphen (the field
separator) and no underscore (the image of space). -/
def cleanName (s : String) : Prop := '-' ∉ s.data ∧ '_' ∉ s.data

instance (s : String) : Decidable (cleanName s) := by
  unfold cleanName; infer_instance

/-- Date fields within the widths strftime renders as exactly 4+2+2 digits. -/
def validDate (d : Date) : Prop := d.y < 10000 ∧ d.m < 100 ∧ d.d < 100

instance (d : Date) : Decidable (validDate d) := by
  unfold validDate; infer_instance

theorem sep_split {s : Char} :
    ∀ (u u' v v' : List Char), s ∉ u → s ∉ u' →
      u ++ s :: v = u' ++ s :: v' → u = u' ∧ v = v' := by
  intro u
  induction u with
  | nil =>
    intro u' v v' _ hu' h
    cases u' with
    | nil => simpa using h
    | cons b t =>
      simp only [List.nil_append, List.cons_append, List.cons.injEq] at h
      exact absurd (h.1 ▸ List.mem_cons_self b t) hu'
  | cons a t ih =>
    intro u' v v' hu hu' h
    cases u' with
    | nil =>
      simp only [List.cons_append, List.nil_append, List.cons.injEq] at h
      exact absurd (h.1 ▸ List.mem_cons_self a t) hu
    | cons b t' =>
      simp only [List.cons_append, List.cons.injEq] at h
      have ht := ih t' v v' (fun hm => hu (List.mem_cons_of_mem a hm))
        (fun hm => hu' (h.1 ▸ List.mem_cons_of_mem b hm)) h.2
      exact ⟨by rw [h.1, ht.1], ht.2⟩

theorem map_inj_on {α β : Type} {f : α → β} {P : α → Prop}
    (hf : ∀ a b, P a → P b → f a = f b → a = b) :
    ∀ (l₁ l₂ : List α), (∀ x ∈ l₁, P x) → (∀ x ∈ l₂, P x) →
      l₁.map f = l₂.map f → l₁ = l₂ := by
  intro l₁
  induction l₁ with
  | nil =>
    intro l₂ _ _ h
    cases l₂ with
    | nil => rfl
    | cons b t => simp at h
  | cons a t ih =>
    intro l₂ h₁ h₂ h
    cases l₂ with
    | nil => simp at h
    | cons b t' =>
      simp only [List.map_cons, List.cons.injEq] at h
      have hab := hf a b (h₁ a (List.mem_cons_self a t))
        (h₂ b (List.mem_cons_self b t')) h.1
      have ht := ih t' (fun x hx => h₁ x (List.mem_cons_of_mem a hx))
        (fun x hx => h₂ x (List.mem_cons_of_mem b hx)) h.2
      rw [hab, ht]

theorem map_id_on {α : Type} {f : α → α} :
    ∀ l : List α, (∀ x ∈ l, f x = x) → l.map f = l := by
  intro l
  induction l with
  | nil => intro _; rfl
  | cons a t ih =>
    intro h
    simp only [List.map_cons]
    rw [h a (List.mem_cons_self a t), ih fun x hx => h x (List.mem_cons_of_mem a hx)]

theorem replChar_inj : ∀ a b : Char, a ≠ '_' → b ≠ '_' → replChar a = replChar b → a = b := by
  intro a b ha hb h
  by_cases h1 : a = ' ' <;> by_cases h2 : b = ' '
  · rw [h1, h2]
  · rw [h1] at h; simp only [replChar, if_pos rfl, if_neg h2] at h
    exact absurd h.symm hb
  · rw [h2] at h; simp only [replChar, if_neg h1, if_pos rfl] at h
    exact absurd h ha
  · simpa only [replChar, if_neg h1, if_neg h2] using h

theorem replChar_ne_hyphen {c : Char} (h : c ≠ '-') : replChar c ≠ '-' := by
  unfold replChar
  split
  · decide
  · exact h

theorem dateDigits_lt (d : Date) : ∀ x ∈ dateDigits d, x < 10 := by
  intro x hx
  simp only [dateDigits, pad4, pad2, List.mem_append, List.mem_cons,
    List.not_mem_nil, or_false] at hx
  rcases hx with (h | h | h | h) | (h | h) | (h | h) <;> omega

theorem digitChar_props : ∀ x : Nat, x < 10 →
    Nat.digitChar x ≠ ' ' ∧ Nat.digitChar x ≠ '-' ∧ Nat.digitChar x ≠ '_' := by
  decide

theorem digitChar_inj10 : ∀ a : Nat, a < 10 → ∀ b : Nat, b < 10 →
    Nat.digitChar a = Nat.digitChar b → a = b := by
  decide

theorem dateChars_props (d : Date) :
    ∀ c ∈ dateChars d, c ≠ ' ' ∧ c ≠ '-' ∧ c ≠ '_' := by
  intro c hc
  simp only [dateChars, List.mem_map] at hc
  obtain ⟨x, hx, rfl⟩ := hc
  exact digitChar_props x (dateDigits_lt d x hx)

theorem map_repl_dateChars (d : Date) : (dateChars d).map replChar = dateChars d := by
  refine map_id_on _ fun c hc => ?_
  have h := (dateChars_props d c hc).1
  simp [replChar, h]

theorem dateDigits_inj (d₁ d₂ : Date) (hv₁ : validDate d₁) (hv₂ : validDate d₂)
    (h : dateDigits d₁ = dateDigits d₂) : d₁ = d₂ := by
  obtain ⟨y₁, m₁, dd₁⟩ := d₁
  obtain ⟨y₂, m₂, dd₂⟩ := d₂
  obtain ⟨hy₁, hm₁, hd₁⟩ := hv₁
  obtain ⟨hy₂, hm₂, hd₂⟩ := hv₂
  have hy₁' : y₁ < 10000 := hy₁
  have hm₁' : m₁ < 100 := hm₁
  have hd₁' : dd₁ < 100 := hd₁
  have hy₂' : y₂ < 10000 := hy₂
  have hm₂' : m₂ < 100 := hm₂
  have hd₂' : dd₂ < 100 := hd₂
  simp [dateDigits, pad4, pad2] at h
  simp only [Date.mk.injEq]
  refine ⟨?_, ?_, ?_⟩ <;> omega

theorem string_data_inj {s t : String} (h : s.data = t.data) : s = t := by
  cases s; cases t; exact congrArg String.mk h

theorem map_repl_no_hyphen {l : List Char} (h : '-' ∉ l) :
    '-' ∉ l.map replChar := by
  intro hm
  simp only [List.mem_map] at hm
  obtain ⟨x, hx, he⟩ := hm
  exact replChar_ne_hyphen (fun hc => h (hc ▸ hx)) he

/-- C6 (amended): make_match_id is a deterministic function of
(league code, date, home, away), and it is injective on the domain where
strftime renders exactly eight date digits and the league and team names
contain neither a hyphen (the field separator) nor an underscore (the image
of a space); outside that domain distinct quadruples can collide. -/
theorem makeMatchId_inj (l₁ h₁ a₁ l₂ h₂ a₂ : String) (d₁ d₂ : Date)
    (hv₁ : validDate d₁) (hv₂ : validDate d₂)
    (hl₁ : cleanName l₁) (hh₁ : cleanName h₁) (ha₁ : cleanName a₁)
    (hl₂ : cleanName l₂) (hh₂ : cleanName h₂) (ha₂ : cleanName a₂)
    (heq : makeMatchId l₁ d₁ h₁ a₁ = makeMatchId l₂ d₂ h₂ a₂) :
    l₁ = l₂ ∧ d₁ = d₂ ∧ h₁ = h₂ ∧ a₁ = a₂ := by
  have hdata : matchIdChars l₁.data d₁ h₁.data a₁.data =
      matchIdChars l₂.data d₂ h₂.data a₂.data := congrArg String.data heq
  unfold matchIdChars at hdata
  simp only [List.map_append, List.map_cons,
    show replChar '-' = '-' from by decide, map_repl_dateChars] at hdata
  have s1 := sep_split _ _ _ _ (map_repl_no_hyphen hl₁.1) (map_repl_no_hyphen hl₂.1) hdata
  have s2 := sep_split _ _ _ _
    (fun hm => ((dateChars_props d₁ '-' hm).2.1) rfl)
    (fun hm => ((dateChars_props d₂ '-' hm).2.1) rfl) s1.2
  have s3 := sep_split _ _ _ _ (map_repl_no_hyphen hh₁.1) (map_repl_no_hyphen hh₂.1) s2.2
  have hl : l₁ = l₂ := string_data_inj
    (map_inj_on replChar_inj _ _ (fun x hx h => hl₁.2 (h ▸ hx))
      (fun x hx h => hl₂.2 (h ▸ hx)) s1.1)
  have hdd : d₁ = d₂ := by
    refine dateDigits_inj d₁ d₂ hv₁ hv₂ ?_
    exact map_inj_on (fun a b ha hb => digitChar_inj10 a ha b hb) _ _
      (dateDigits_lt d₁) (dateDigits_lt d₂) s2.1
  have hh : h₁ = h₂ := string_data_inj
    (map_inj_on replChar_inj _ _ (fun x hx h => hh₁.2 (h ▸ hx))
      (fun x hx h => hh₂.2 (h ▸ hx)) s3.1)
  have ha : a₁ = a₂ := string_data_inj
    (map_inj_on replChar_inj _ _ (fun x hx h => ha₁.2 (h ▸ hx))
      (fun x hx h => ha₂.2 (h ▸ hx)) s3.2)
  exact ⟨hl, hdd, hh, ha⟩

theorem makeMatchId_inj_witness :
    validDate ⟨2024, 6, 9⟩ ∧ cleanName "Premier League" ∧ cleanName "Arsenal" ∧
    ("Premier League" = "Premier League" ∧ (⟨2024, 6, 9⟩ : Date) = ⟨2024, 6, 9⟩ ∧
      "Arsenal" = "Arsenal" ∧ "Chelsea" = "Chelsea") :=
  ⟨by decide, by decide, by decide,
   makeMatchId_inj "Premier League" "Arsenal" "Chelsea" "Premier League" "Arsenal"
     "Chelsea" ⟨2024, 6, 9⟩ ⟨2024, 6, 9⟩ (by decide) (by decide) (by decide)
     (by decide) (by decide) (by decide) (by decide) (by decide) rfl⟩

/-! ## Persistence upsert (manage.py refresh, lines 17-74)

Relational state as append-only lists with the autoincrement counters made
explicit.  League upsert keys on code, Team upsert on (league id, name),
Match upsert on the derived match id; Prediction rows are always inserted. -/

structure LeagueRow where
  id : Nat
  code : String
  name : String
deriving DecidableEq, Repr

structure TeamRow where
  id : Nat
  leagueId : Nat
  name : String
deriving DecidableEq, Repr

structure MatchRow where
  id : String
  leagueId : Nat
  homeTeamId : Nat
  awayTeamId : Nat
  kickoffUtc : Ts
deriving DecidableEq, Repr

structure PredictionRow where
  matchId : String
  model : String
  ahLine : ℚ
deriving DecidableEq, Repr

structure DB where
  leagues : List LeagueRow
  teams : List TeamRow
  matchRows : List MatchRow
  preds : List PredictionRow
  nextLeagueId : Nat
  nextTeamId : Nat
deriving DecidableEq, Repr

def emptyDB : DB := ⟨[], [], [], [], 1, 1⟩

/-- Upsert of the League row by code (manage.py lines 24-28). -/
def upsertLeague (db : DB) (code : String) : DB × Nat :=
  match db.leagues.find? fun l => l.code == code with
  | some l => (db, l.id)
  | none =>
    ({ db with
       leagues := db.leagues ++ [⟨db.nextLeagueId, code, code⟩]
       nextLeagueId := db.nextLeagueId + 1 }, db.nextLeagueId)

/-- upsert_team (manage.py lines 8-12). -/
def upsertTeam (db : DB) (lgId : Nat) (name : String) : DB × Nat :=
  match db.teams.find? fun t => t.leagueId == lgId && t.name == name with
  | some t => (db, t.id)
  | none =>
    ({ db with
       teams := db.teams ++ [⟨db.nextTeamId, lgId, name⟩]
       nextTeamId := db.nextTeamId + 1 }, db.nextTeamId)

/-- Match upsert by id; an existing row is left untouched
(manage.py lines 38-41). -/
def upsertMatch (db : DB) (mid : String) (lgId hId aId : Nat) (k : Ts) : DB :=
  match db.matchRows.find? fun m => m.id == mid with
  | some _ => db
  | none => { db with matchRows := db.matchRows ++ [⟨mid, lgId, hId, aId, k⟩] }

/-- nz (manage.py lines 44-48): NaN or missing handicaps fall back to 0.0. -/
def nz (v : Option ℚ) : ℚ := v.getD 0

/-- The five Prediction rows inserted per combined fixture row
(manage.py lines 56-74). -/
def predModels (mid : String) (row : CombinedRow) : List PredictionRow :=
  [⟨mid, "BP-ag", nz row.bpAg⟩, ⟨mid, "BP-xg", nz row.bpXg⟩,
   ⟨mid, "WB-ag", nz row.wbAg⟩, ⟨mid, "WB-xg", nz row.wbXg⟩,
   ⟨mid, "BP+WB Avg", nz row.avg⟩]

def addPredictions (db : DB) (mid : String) (row : CombinedRow) : DB :=
  { db with preds := db.preds ++ predModels mid row }

def rowMatchId (code : String) (row : CombinedRow) : String :=
  makeMatchId code row.date.ymd row.home row.away

/-- The per-row body of the refresh loop: team upserts, match upsert,
then the five prediction inserts. -/
def refreshRow (code : String) (lgId : Nat) (db : DB) (row : CombinedRow) : DB :=
  let mid := rowMatchId code row
  let ht := upsertTeam db lgId row.home
  let aw := upsertTeam ht.1 lgId row.away
  let db3 := upsertMatch aw.1 mid lgId ht.2 aw.2 row.date
  addPredictions db3 mid row

/-- One league block of refresh: skipped outright when the combined table is
empty (manage.py lines 20-22), otherwise league upsert then the row loop. -/
def refreshBlock (db : DB) (blk : String × LeagueResult) : DB :=
  if blk.2.combined.rows.isEmpty then db
  else
    let lg := upsertLeague db blk.1
    blk.2.combined.rows.foldl (refreshRow blk.1 lg.2) lg.1

/-- refresh() over the per-league results. -/
def refresh (results : List (String × LeagueResult)) (db : DB) : DB :=
  results.foldl refreshBlock db

/-- Two full refresh runs against the same results, from an empty store. -/
def refreshTwice (results : List (String × LeagueResult)) : DB :=
  refresh results (refresh results emptyDB)

def leagueCount (db : DB) (code : String) : Nat :=
  db.leagues.countP fun l => l.code == code

def teamCount (db : DB) (lgId : Nat) (name : String) : Nat :=
  db.teams.countP fun t => t.leagueId == lgId && t.name == name

def matchCount (db : DB) (mid : String) : Nat :=
  db.matchRows.countP fun m => m.id == mid

def totalRows (results : List (String × LeagueResult)) : Nat :=
  (results.map fun b => b.2.combined.rows.length).sum

/-- C10: a league whose combined result table is empty is skipped before any
upsert: the block leaves the store exactly as it was, so no League, Team,
Match or Prediction row is staged for it; in particular a league first
sighted with zero upcoming fixtures (whose pipeline result is the all-empty
frame set) never gets a League row. -/
theorem emptyCombined_stages_nothing (db : DB) (blk : String × LeagueResult)
    (h : blk.2.combined.rows = []) : refreshBlock db blk = db := by
  simp [refreshBlock, h]

theorem emptyCombined_stages_nothing_witness :
    emptyLeagueResult.combined.rows = [] ∧
    refreshBlock emptyDB ("L", emptyLeagueResult) = emptyDB :=
  ⟨rfl, emptyCombined_stages_nothing emptyDB ("L", emptyLeagueResult) rfl⟩

/-! ## Upsert invariants: key uniqueness, append-only growth -/

/-- Key uniqueness: at most one League row per code, one Team row per
(league id, name), one Match row per id. -/
def DBInv (db : DB) : Prop :=
  (∀ code, leagueCount db code ≤ 1) ∧
  (∀ lgId name, teamCount db lgId name ≤ 1) ∧
  (∀ mid, matchCount db mid ≤ 1)

/-- The refresh loop only appends to the three keyed tables. -/
def DBExt (db db' : DB) : Prop :=
  (∃ s, db'.leagues = db.leagues ++ s) ∧
  (∃ s, db'.teams = db.teams ++ s) ∧
  (∃ s, db'.matchRows = db.matchRows ++ s)

theorem dbExt_refl (db : DB) : DBExt db db :=
  ⟨⟨[], (List.append_nil _).symm⟩, ⟨[], (List.append_nil _).symm⟩,
   ⟨[], (List.append_nil _).symm⟩⟩

theorem dbExt_trans {a b c : DB} (h1 : DBExt a b) (h2 : DBExt b c) : DBExt a c := by
  obtain ⟨⟨s1, e1⟩, ⟨s2, e2⟩, ⟨s3, e3⟩⟩ := h1
  obtain ⟨⟨t1, f1⟩, ⟨t2, f2⟩, ⟨t3, f3⟩⟩ := h2
  exact ⟨⟨s1 ++ t1, by rw [f1, e1, List.append_assoc]⟩,
         ⟨s2 ++ t2, by rw [f2, e2, List.append_assoc]⟩,
         ⟨s3 ++ t3, by rw [f3, e3, List.append_assoc]⟩⟩

theorem leagueCount_mono {db db' : DB} (h : DBExt db db') (code : String) :
    leagueCount db code ≤ leagueCount db' code := by
  obtain ⟨⟨s, e⟩, _, _⟩ := h
  unfold leagueCount
  rw [e, List.countP_append]
  omega

theorem teamCount_mono {db db' : DB} (h : DBExt db db') (lgId : Nat) (name : String) :
    teamCount db lgId name ≤ teamCount db' lgId name := by
  obtain ⟨_, ⟨s, e⟩, _⟩ := h
  unfold teamCount
  rw [e, List.countP_append]
  omega

theorem matchCount_mono {db db' : DB} (h : DBExt db db') (mid : String) :
    matchCount db mid ≤ matchCount db' mid := by
  obtain ⟨_, _, ⟨s, e⟩⟩ := h
  unfold matchCount
  rw [e, List.countP_append]
  omega

theorem mem_leagues_mono {db db' : DB} (h : DBExt db db') {l : LeagueRow}
    (hm : l ∈ db.leagues) : l ∈ db'.leagues := by
  obtain ⟨⟨s, e⟩, _, _⟩ := h
  rw [e]
  exact List.mem_append_left _ hm

theorem countP_append_singleton {α : Type} (l : List α) (p : α → Bool) (x : α) :
    (l ++ [x]).countP p = l.countP p + (if p x then 1 else 0) := by
  rw [List.countP_append, List.countP_cons]
  simp

theorem upsertLeague_ext (db : DB) (code : String) : DBExt db (upsertLeague db code).1 := by
  unfold upsertLeague
  cases hf : db.leagues.find? fun l => l.code == code with
  | some l => exact dbExt_refl db
  | none =>
    exact ⟨⟨[⟨db.nextLeagueId, code, code⟩], rfl⟩,
           ⟨[], (List.append_nil _).symm⟩, ⟨[], (List.append_nil _).symm⟩⟩

theorem upsertTeam_ext (db : DB) (lgId : Nat) (name : String) :
    DBExt db (upsertTeam db lgId name).1 := by
  unfold upsertTeam
  cases hf : db.teams.find? fun t => t.leagueId == lgId && t.name == name with
  | some t => exact dbExt_refl db
  | none =>
    exact ⟨⟨[], (List.append_nil _).symm⟩,
           ⟨[⟨db.nextTeamId, lgId, name⟩], rfl⟩, ⟨[], (List.append_nil _).symm⟩⟩

theorem upsertMatch_ext (db : DB) (mid : String) (lgId hId aId : Nat) (k : Ts) :
    DBExt db (upsertMatch db mid lgId hId aId k) := by
  unfold upsertMatch
  cases hf : db.matchRows.find? fun m => m.id == mid with
  | some m => exact dbExt_refl db
  | none =>
    exact ⟨⟨[], (List.append_nil _).symm⟩, ⟨[], (List.append_nil _).symm⟩,
           ⟨[⟨mid, lgId, hId, aId, k⟩], rfl⟩⟩

theorem addPredictions_ext (db : DB) (mid : String) (row : CombinedRow) :
    DBExt db (addPredictions db mid row) :=
  ⟨⟨[], (List.append_nil _).symm⟩, ⟨[], (List.append_nil _).symm⟩,
   ⟨[], (List.append_nil _).symm⟩⟩

theorem upsertLeague_inv (db : DB) (code : String) (h : DBInv db) :
    DBInv (upsertLeague db code).1 := by
  obtain ⟨h1, h2, h3⟩ := h
  unfold upsertLeague
  cases hf : db.leagues.find? fun l => l.code == code with
  | some l => exact ⟨h1, h2, h3⟩
  | none =>
    refine ⟨fun c => ?_, h2, h3⟩
    show (db.leagues ++ [(⟨db.nextLeagueId, code, code⟩ : LeagueRow)]).countP (fun l => l.code == c) ≤ 1
    rw [countP_append_singleton]
    by_cases hc : code = c
    · subst hc
      have hz : db.leagues.countP (fun l => l.code == code) = 0 :=
        List.countP_eq_zero.2 (List.find?_eq_none.1 hf)
      rw [hz]
      simp
    · have : (((⟨db.nextLeagueId, code, code⟩ : LeagueRow)).code == c) = false := by
        simp [hc]
      rw [this]
      simpa using h1 c

theorem upsertTeam_inv (db : DB) (lgId : Nat) (name : String) (h : DBInv db) :
    DBInv (upsertTeam db lgId name).1 := by
  obtain ⟨h1, h2, h3⟩ := h
  unfold upsertTeam
  cases hf : db.teams.find? fun t => t.leagueId == lgId && t.name == name with
  | some t => exact ⟨h1, h2, h3⟩
  | none =>
    refine ⟨h1, fun i n => ?_, h3⟩
    show (db.teams ++ [(⟨db.nextTeamId, lgId, name⟩ : TeamRow)]).countP
      (fun t => t.leagueId == i && t.name == n) ≤ 1
    rw [countP_append_singleton]
    by_cases hi : lgId = i ∧ name = n
    · obtain ⟨rfl, rfl⟩ := hi
      have hz : db.teams.countP (fun t => t.leagueId == lgId && t.name == name) = 0 :=
        List.countP_eq_zero.2 (List.find?_eq_none.1 hf)
      rw [hz]
      simp
    · have : (((⟨db.nextTeamId, lgId, name⟩ : TeamRow)).leagueId == i &&
          ((⟨db.nextTeamId, lgId, name⟩ : TeamRow)).name == n) = false := by
        rcases not_and_or.1 hi with hne | hne <;> simp [hne]
      rw [this]
      simpa using h2 i n

theorem upsertMatch_inv (db : DB) (mid : String) (lgId hId aId : Nat) (k : Ts)
    (h : DBInv db) : DBInv (upsertMatch db mid lgId hId aId k) := by
  obtain ⟨h1, h2, h3⟩ := h
  unfold upsertMatch
  cases hf : db.matchRows.find? fun m => m.id == mid with
  | some m => exact ⟨h1, h2, h3⟩
  | none =>
    refine ⟨h1, h2, fun i => ?_⟩
    show (db.matchRows ++ [(⟨mid, lgId, hId, aId, k⟩ : MatchRow)]).countP (fun m => m.id == i) ≤ 1
    rw [countP_append_singleton]
    by_cases hi : mid = i
    · subst hi
      have hz : db.matchRows.countP (fun m => m.id == mid) = 0 :=
        List.countP_eq_zero.2 (List.find?_eq_none.1 hf)
      rw [hz]
      simp
    · have : (((⟨mid, lgId, hId, aId, k⟩ : MatchRow)).id == i) = false := by
        simp [hi]
      rw [this]
      simpa using h3 i

theorem addPredictions_inv (db : DB) (mid : String) (row : CombinedRow)
    (h : DBInv db) : DBInv (addPredictions db mid row) := h

theorem upsertLeague_found (db : DB) (code : String) :
    ∃ l ∈ (upsertLeague db code).1.leagues,
      l.id = (upsertLeague db code).2 ∧ l.code = code := by
  unfold upsertLeague
  cases hf : db.leagues.find? fun l => l.code == code with
  | some l =>
    have hp := List.find?_some hf
    exact ⟨l, List.mem_of_find?_eq_some hf, rfl, eq_of_beq hp⟩
  | none =>
    exact ⟨⟨db.nextLeagueId, code, code⟩,
      List.mem_append_right _ (List.mem_cons_self _ _), rfl, rfl⟩

theorem upsertTeam_pos (db : DB) (lgId : Nat) (name : String) :
    1 ≤ teamCount (upsertTeam db lgId name).1 lgId name := by
  unfold upsertTeam teamCount
  cases hf : db.teams.find? fun t => t.leagueId == lgId && t.name == name with
  | some t =>
    have hp := List.find?_some hf
    exact List.countP_pos_iff.2 ⟨t, List.mem_of_find?_eq_some hf, hp⟩
  | none =>
    show 1 ≤ (db.teams ++ [(⟨db.nextTeamId, lgId, name⟩ : TeamRow)]).countP
      (fun t => t.leagueId == lgId && t.name == name)
    rw [countP_append_singleton]
    simp

theorem upsertMatch_pos (db : DB) (mid : String) (lgId hId aId : Nat) (k : Ts) :
    1 ≤ matchCount (upsertMatch db mid lgId hId aId k) mid := by
  unfold upsertMatch matchCount
  cases hf : db.matchRows.find? fun m => m.id == mid with
  | some m =>
    have hp := List.find?_some hf
    exact List.countP_pos_iff.2 ⟨m, List.mem_of_find?_eq_some hf, hp⟩
  | none =>
    show 1 ≤ (db.matchRows ++ [(⟨mid, lgId, hId, aId, k⟩ : MatchRow)]).countP
      (fun m => m.id == mid)
    rw [countP_append_singleton]
    simp

theorem upsertLeague_preds (db : DB) (code : String) :
    (upsertLeague db code).1.preds = db.preds := by
  unfold upsertLeague
  cases hf : db.leagues.find? fun l => l.code == code with
  | some l => rfl
  | none => rfl

theorem upsertTeam_preds (db : DB) (lgId : Nat) (name : String) :
    (upsertTeam db lgId name).1.preds = db.preds := by
  unfold upsertTeam
  cases hf : db.teams.find? fun t => t.leagueId == lgId && t.name == name with
  | some t => rfl
  | none => rfl

theorem upsertMatch_preds (db : DB) (mid : String) (lgId hId aId : Nat) (k : Ts) :
    (upsertMatch db mid lgId hId aId k).preds = db.preds := by
  unfold upsertMatch
  cases hf : db.matchRows.find? fun m => m.id == mid with
  | some m => rfl
  | none => rfl

theorem addPredictions_len (db : DB) (mid : String) (row : CombinedRow) :
    (addPredictions db mid row).preds.length = db.preds.length + 5 := by
  simp [addPredictions, predModels]

/-! ## Fold lemmas for the refresh loops -/

theorem foldl_ext {α : Type} (f : DB → α → DB) (hf : ∀ db x, DBExt db (f db x)) :
    ∀ (l : List α) (db : DB), DBExt db (l.foldl f db) := by
  intro l
  induction l with
  | nil => intro db; exact dbExt_refl db
  | cons a t ih => intro db; exact dbExt_trans (hf db a) (ih (f db a))

theorem foldl_inv {α : Type} (f : DB → α → DB)
    (hf : ∀ db x, DBInv db → DBInv (f db x)) :
    ∀ (l : List α) (db : DB), DBInv db → DBInv (l.foldl f db) := by
  intro l
  induction l with
  | nil => intro db h; exact h
  | cons a t ih => intro db h; exact ih (f db a) (hf db a h)

theorem foldl_establish {α : Type} (f : DB → α → DB) {P : DB → Prop}
    (hmono : ∀ {d1 d2 : DB}, DBExt d1 d2 → P d1 → P d2)
    (hext : ∀ db x, DBExt db (f db x)) (x : α)
    (hx : ∀ db, P (f db x)) :
    ∀ (l : List α) (db : DB), x ∈ l → P (l.foldl f db) := by
  intro l
  induction l with
  | nil => intro db hm; cases hm
  | cons a t ih =>
    intro db hm
    rcases List.mem_cons.1 hm with rfl | hm'
    · exact hmono (foldl_ext f hext t (f db x)) (hx db)
    · exact ih (f db a) hm'

/-! ## Per-row refresh lemmas -/

theorem refreshRow_ext (code : String) (lgId : Nat) (db : DB) (row : CombinedRow) :
    DBExt db (refreshRow code lgId db row) := by
  dsimp only [refreshRow]
  exact dbExt_trans (upsertTeam_ext db lgId row.home)
    (dbExt_trans (upsertTeam_ext _ lgId row.away)
      (dbExt_trans (upsertMatch_ext _ _ _ _ _ _) (addPredictions_ext _ _ _)))

theorem refreshRow_inv (code : String) (lgId : Nat) (db : DB) (row : CombinedRow)
    (h : DBInv db) : DBInv (refreshRow code lgId db row) := by
  dsimp only [refreshRow]
  exact addPredictions_inv _ _ _ (upsertMatch_inv _ _ _ _ _ _
    (upsertTeam_inv _ _ _ (upsertTeam_inv _ _ _ h)))

theorem refreshRow_presence (code : String) (lgId : Nat) (db : DB) (row : CombinedRow) :
    1 ≤ teamCount (refreshRow code lgId db row) lgId row.home ∧
    1 ≤ teamCount (refreshRow code lgId db row) lgId row.away ∧
    1 ≤ matchCount (refreshRow code lgId db row) (rowMatchId code row) := by
  dsimp only [refreshRow]
  refine ⟨?_, ?_, ?_⟩
  · exact le_trans (upsertTeam_pos db lgId row.home)
      (teamCount_mono (dbExt_trans (upsertTeam_ext _ lgId row.away)
        (dbExt_trans (upsertMatch_ext _ _ _ _ _ _) (addPredictions_ext _ _ _))) lgId row.home)
  · exact le_trans (upsertTeam_pos _ lgId row.away)
      (teamCount_mono (dbExt_trans (upsertMatch_ext _ _ _ _ _ _)
        (addPredictions_ext _ _ _)) lgId row.away)
  · exact le_trans (upsertMatch_pos _ (rowMatchId code row) lgId _ _ row.date)
      (matchCount_mono (addPredictions_ext _ _ _) (rowMatchId code row))

theorem refreshRow_predsLen (code : String) (lgId : Nat) (db : DB) (row : CombinedRow) :
    (refreshRow code lgId db row).preds.length = db.preds.length + 5 := by
  dsimp only [refreshRow]
  rw [addPredictions_len, upsertMatch_preds, upsertTeam_preds, upsertTeam_preds]

/-! ## Block- and run-level refresh lemmas -/

theorem refreshBlock_ext (db : DB) (blk : String × LeagueResult) :
    DBExt db (refreshBlock db blk) := by
  unfold refreshBlock
  split
  · exact dbExt_refl db
  · exact dbExt_trans (upsertLeague_ext db blk.1)
      (foldl_ext _ (fun d r => refreshRow_ext blk.1 (upsertLeague db blk.1).2 d r)
        blk.2.combined.rows (upsertLeague db blk.1).1)

theorem refreshBlock_inv (db : DB) (blk : String × LeagueResult) (h : DBInv db) :
    DBInv (refreshBlock db blk) := by
  unfold refreshBlock
  split
  · exact h
  · exact foldl_inv _ (fun d r => refreshRow_inv blk.1 (upsertLeague db blk.1).2 d r)
      blk.2.combined.rows (upsertLeague db blk.1).1 (upsertLeague_inv db blk.1 h)

theorem refreshBlock_presence (db : DB) (blk : String × LeagueResult)
    (hne : blk.2.combined.rows ≠ []) :
    ∃ lg ∈ (refreshBlock db blk).leagues, lg.code = blk.1 ∧
      ∀ row ∈ blk.2.combined.rows,
        1 ≤ teamCount (refreshBlock db blk) lg.id row.home ∧
        1 ≤ teamCount (refreshBlock db blk) lg.id row.away ∧
        1 ≤ matchCount (refreshBlock db blk) (rowMatchId blk.1 row) := by
  obtain ⟨lg, hmem, hid, hcode⟩ := upsertLeague_found db blk.1
  unfold refreshBlock
  rw [if_neg (by simp [hne])]
  refine ⟨lg, ?_, hcode, ?_⟩
  · exact mem_leagues_mono
      (foldl_ext _ (fun d r => refreshRow_ext blk.1 (upsertLeague db blk.1).2 d r)
        blk.2.combined.rows (upsertLeague db blk.1).1) hmem
  · intro row hrow
    have hP := foldl_establish (refreshRow blk.1 (upsertLeague db blk.1).2)
      (P := fun d => 1 ≤ teamCount d (upsertLeague db blk.1).2 row.home ∧
        1 ≤ teamCount d (upsertLeague db blk.1).2 row.away ∧
        1 ≤ matchCount d (rowMatchId blk.1 row))
      (fun hext hp => ⟨le_trans hp.1 (teamCount_mono hext _ _),
        le_trans hp.2.1 (teamCount_mono hext _ _),
        le_trans hp.2.2 (matchCount_mono hext _)⟩)
      (fun d r => refreshRow_ext blk.1 _ d r) row
      (fun d => refreshRow_presence blk.1 _ d row)
      blk.2.combined.rows (upsertLeague db blk.1).1 hrow
    rw [hid]
    exact hP

theorem refresh_ext (results : List (String × LeagueResult)) (db : DB) :
    DBExt db (refresh results db) :=
  foldl_ext refreshBlock (fun d b => refreshBlock_ext d b) results db

theorem refresh_inv (results : List (String × LeagueResult)) (db : DB)
    (h : DBInv db) : DBInv (refresh results db) :=
  foldl_inv refreshBlock (fun d b hh => refreshBlock_inv d b hh) results db h

theorem refresh_presence (results : List (String × LeagueResult)) (db : DB)
    (code : String) (res : LeagueResult) (hmem : (code, res) ∈ results)
    (hne : res.combined.rows ≠ []) :
    ∃ lg ∈ (refresh results db).leagues, lg.code = code ∧
      ∀ row ∈ res.combined.rows,
        1 ≤ teamCount (refresh results db) lg.id row.home ∧
        1 ≤ teamCount (refresh results db) lg.id row.away ∧
        1 ≤ matchCount (refresh results db) (rowMatchId code row) :=
  foldl_establish refreshBlock
    (P := fun d => ∃ lg ∈ d.leagues, lg.code = code ∧ ∀ row ∈ res.combined.rows,
      1 ≤ teamCount d lg.id row.home ∧ 1 ≤ teamCount d lg.id row.away ∧
      1 ≤ matchCount d (rowMatchId code row))
    (fun hext hp => by
      obtain ⟨lg, hm, hc, hr⟩ := hp
      exact ⟨lg, mem_leagues_mono hext hm, hc, fun row hrow =>
        ⟨le_trans (hr row hrow).1 (teamCount_mono hext _ _),
         le_trans (hr row hrow).2.1 (teamCount_mono hext _ _),
         le_trans (hr row hrow).2.2 (matchCount_mono hext _)⟩⟩)
    (fun d b => refreshBlock_ext d b) (code, res)
    (fun d => refreshBlock_presence d (code, res) hne)
    results db hmem

theorem emptyDB_inv : DBInv emptyDB :=
  ⟨fun _ => by simp [leagueCount, emptyDB],
   fun _ _ => by simp [teamCount, emptyDB],
   fun _ => by simp [matchCount, emptyDB]⟩

theorem foldl_refreshRow_predsLen (code : String) (lgId : Nat) :
    ∀ (rows : List CombinedRow) (db : DB),
      (rows.foldl (refreshRow code lgId) db).preds.length =
        db.preds.length + 5 * rows.length := by
  intro rows
  induction rows with
  | nil => intro db; simp
  | cons r t ih =>
    intro db
    rw [List.foldl_cons, ih (refreshRow code lgId db r), refreshRow_predsLen]
    simp only [List.length_cons]
    omega

theorem refreshBlock_predsLen (db : DB) (blk : String × LeagueResult) :
    (refreshBlock db blk).preds.length =
      db.preds.length + 5 * blk.2.combined.rows.length := by
  simp only [refreshBlock]
  split
  case isTrue h =>
    have he : blk.2.combined.rows = [] := List.isEmpty_iff.1 h
    rw [he]
    simp
  case isFalse h =>
    rw [foldl_refreshRow_predsLen, upsertLeague_preds]

theorem refresh_predsLen :
    ∀ (results : List (String × LeagueResult)) (db : DB),
      (refresh results db).preds.length = db.preds.length + 5 * totalRows results := by
  intro results
  induction results with
  | nil => intro db; simp [refresh, totalRows]
  | cons b t ih =>
    intro db
    have h1 : refresh (b :: t) db = refresh t (refreshBlock db b) := rfl
    rw [h1, ih (refreshBlock db b), refreshBlock_predsLen]
    simp only [totalRows, List.map_cons, List.sum_cons]
    omega

/-- C7 (amended): running refresh twice from an empty store against the same
per-league results gives, for every league block with a non-empty combined
table: exactly one League row for its code; a unique league row under which
every fixture row's home and away teams each have exactly one Team row; and
exactly one Match row per derived match id (distinct (league, date, home,
away) quadruples can collide on the id when names contain hyphens or
spaces/underscores, in which case they share that one row).  Prediction rows
accumulate: each run appends five rows per combined fixture row, so two runs
leave 2 * 5 * (total combined rows). -/
theorem refresh_twice_spec (results : List (String × LeagueResult)) :
    (refreshTwice results).preds.length = 2 * (5 * totalRows results) ∧
    ∀ code res, (code, res) ∈ results → res.combined.rows ≠ [] →
      leagueCount (refreshTwice results) code = 1 ∧
      ∃ lg ∈ (refreshTwice results).leagues, lg.code = code ∧
        ∀ row ∈ res.combined.rows,
          teamCount (refreshTwice results) lg.id row.home = 1 ∧
          teamCount (refreshTwice results) lg.id row.away = 1 ∧
          matchCount (refreshTwice results) (rowMatchId code row) = 1 := by
  have hinv : DBInv (refreshTwice results) :=
    refresh_inv results _ (refresh_inv results emptyDB emptyDB_inv)
  constructor
  · show (refresh results (refresh results emptyDB)).preds.length = _
    rw [refresh_predsLen results (refresh results emptyDB),
      refresh_predsLen results emptyDB]
    have : emptyDB.preds.length = 0 := rfl
    omega
  · intro code res hmem hne
    obtain ⟨lg, hlgmem, hcode, hrows⟩ :=
      refresh_presence results (refresh results emptyDB) code res hmem hne
    refine ⟨?_, lg, hlgmem, hcode, fun row hrow => ?_⟩
    · refine Nat.le_antisymm (hinv.1 code) ?_
      refine List.countP_pos_iff.2 ⟨lg, hlgmem, ?_⟩
      simp [hcode]
    · obtain ⟨ht1, ht2, hm⟩ := hrows row hrow
      exact ⟨Nat.le_antisymm (hinv.2.1 _ _) ht1,
        Nat.le_antisymm (hinv.2.1 _ _) ht2,
        Nat.le_antisymm (hinv.2.2 _) hm⟩

/-- A league result whose two fixtures have distinct (league, date, home,
away) quadruples that collide on the derived match id. -/
def collidingResult : LeagueResult :=
  ⟨[], [], [], [],
   ⟨[⟨"L", ⟨19888, ⟨2024, 6, 14⟩, 0⟩, "A-B", "C", some 1, some 1, some 1, some 1, some 1⟩,
     ⟨"L", ⟨19888, ⟨2024, 6, 14⟩, 0⟩, "A", "B-C", some 1, some 1, some 1, some 1, some 1⟩],
    true, true, true, true⟩⟩

def collidingResults : List (String × LeagueResult) := [("L", collidingResult)]

/-- C7 counterexample: two distinct (league, date, home, away) quadruples in
one run share a single Match row, because their derived ids coincide
(L-20240614-A-B-C), so the claimed one Match row per distinct quadruple fails
even though refresh ran twice over just these two fixtures. -/
theorem refresh_twice_cex :
    (refreshTwice collidingResults).matchRows.length = 1 ∧
    (("L", (⟨19888, ⟨2024, 6, 14⟩, 0⟩ : Ts), "A-B", "C") ≠
      (("L", (⟨19888, ⟨2024, 6, 14⟩, 0⟩ : Ts), "A", "B-C") :
        String × Ts × String × String)) := by
  refine ⟨by decide, by decide⟩

def simpleResult : LeagueResult :=
  ⟨[], [], [], [],
   ⟨[⟨"L", ⟨19888, ⟨2024, 6, 14⟩, 0⟩, "H", "A", some 1, none, some 2, some 6, some 3⟩],
    true, true, true, true⟩⟩

def simpleResults : List (String × LeagueResult) := [("L", simpleResult)]

theorem refresh_twice_witness :
    ("L", simpleResult) ∈ simpleResults ∧ simpleResult.combined.rows ≠ [] ∧
    leagueCount (refreshTwice simpleResults) "L" = 1 ∧
    (refreshTwice simpleResults).preds.length = 2 * (5 * totalRows simpleResults) :=
  ⟨by decide, by decide,
   ((refresh_twice_spec simpleResults).2 "L" simpleResult (by decide) (by decide)).1,
   (refresh_twice_spec simpleResults).1⟩
